import Mathlib

/-!
Shallow embedding of the dynamic gRPC client of the `grab`/`granc` repository,
centred on `granc-core/src/client.rs` (the call dispatch engine), its lookup
layer (`GrpcClient::dynamic`), the metadata builder (`build_request`), the
request-shape check (`json_array_to_stream`), and the reflection-side helpers
(`granc/src/reflection/remote.rs`).

Conventions of the embedding:
* `serde_json::Value` becomes the inductive `Json`.
* Rust `Result<T, E>` becomes `Except E T`.
* Asynchronous streams become eagerly-materialised `List`s: the code always
  collects streams with `stream.collect().await` into a `Vec`, and feeds
  request streams from `tokio_stream::iter` over a `Vec`, so their observable
  content is exactly an ordered list.
* The tonic transport (channel readiness, the four wire-call entry points,
  and the metadata syntax of `MetadataKey::from_str` / `MetadataValue::from_str`)
  is external to this repository; it is modelled by the `Transport` record of
  response functions and validity predicates, universally quantified in the
  theorems.
* To express "no request bytes are sent", every dispatch function also
  returns the list of wire sends (`NetOp`) it performed, in order.
-/

namespace Granc

/-- Embedding of `serde_json::Value`: a schema-less JSON tree. -/
inductive Json where
  | null
  | bool (b : Bool)
  | num (n : Int)
  | str (s : String)
  | arr (items : List Json)
  | obj (fields : List (String × Json))

/-- Embedding of `tonic::Code`: the gRPC status code classes used by this repository. -/
inductive Code where
  | ok
  | cancelled
  | unknown
  | invalidArgument
  | notFound
  | unimplemented
  | internal
  | unavailable
deriving DecidableEq, Repr

/-- Embedding of `tonic::Status`: a protocol-level status returned by the peer. -/
structure Status where
  code : Code
  message : String
deriving DecidableEq, Repr

/-- Embedding of `GrpcRequestError` (granc-core/src/client.rs lines 51-69). The `source`
payloads of the metadata variants are opaque external parse errors; the
embedding keeps the data the error formats: the offending key. -/
inductive GrpcRequestError where
  | InvalidJson (msg : String)
  | ClientNotReady (msg : String)
  | InvalidMetadataKey (key : String)
  | InvalidMetadataValue (key : String)
deriving DecidableEq, Repr

/-- Embedding of `DynamicResponse` (granc-core/src/client.rs lines 79-82): a unary outcome
or an eagerly collected stream outcome. -/
inductive DynamicResponse where
  | Unary (result : Except Status Json)
  | Streaming (result : Except Status (List (Except Status Json)))

/-- A `tonic::Request<T>`: a payload plus metadata (headers). Metadata is the
association list built by `MetadataMap::insert`, which replaces any previous
value stored for the same key. -/
structure TRequest (α : Type) where
  payload : α
  metadata : List (String × String)

/-- Embedding of `MetadataMap::insert` semantics: if the key is already present its value
is replaced in place, otherwise the pair is appended. -/
def insertMeta (m : List (String × String)) (k v : String) :
    List (String × String) :=
  if m.any (fun p => p.1 == k) then
    m.map (fun p => if p.1 == k then (k, v) else p)
  else m ++ [(k, v)]

/-- Embedding of `MetadataMap::get`: the value stored for a key, if any. -/
def getMeta (m : List (String × String)) (k : String) : Option String :=
  (m.find? (fun p => p.1 == k)).map Prod.snd

/-- The loop body of `build_request` (granc-core/src/client.rs lines 326-342):
validate each `(k, v)` pair in list order, failing on the first invalid key or
value with an error naming that key, and insert valid pairs into the request
metadata. -/
def buildRequestGo (validKey validValue : String → Bool) :
    List (String × String) → TRequest α → Except GrpcRequestError (TRequest α)
  | [], req => .ok req
  | (k, v) :: rest, req =>
    if validKey k then
      if validValue v then
        buildRequestGo validKey validValue rest
          { req with metadata := insertMeta req.metadata k v }
      else .error (.InvalidMetadataValue k)
    else .error (.InvalidMetadataKey k)

/-- Embedding of `build_request` (granc-core/src/client.rs lines 326-342): start from
`tonic::Request::new(payload)` (empty metadata) and process the header pairs. -/
def build_request (validKey validValue : String → Bool) (payload : α)
    (headers : List (String × String)) : Except GrpcRequestError (TRequest α) :=
  buildRequestGo validKey validValue headers { payload := payload, metadata := [] }

/-- Embedding of `json_array_to_stream` (granc-core/src/client.rs lines 344-351): a JSON
array yields the stream of its elements in order; anything else is a shape
error. -/
def json_array_to_stream : Json → Except String (List Json)
  | .arr items => .ok items
  | _ => .error "Client streaming requires a JSON Array body"

/-- Embedding of `MethodDescriptor`: the slice of a `prost_reflect::MethodDescriptor` the
dispatch code reads: its short name, the parent service's full name, the
input/output message types, and the two cardinality flags. -/
structure MethodDescriptor where
  parent_service_full_name : String
  name : String
  input : String
  output : String
  is_client_streaming : Bool
  is_server_streaming : Bool
deriving DecidableEq, Repr

/-- Embedding of `http_path` (granc-core/src/client.rs lines 321-324). -/
def http_path (method : MethodDescriptor) : String :=
  "/" ++ method.parent_service_full_name ++ "/" ++ method.name

/-- Embedding of `JsonCodec::new(input, output)`: the per-call codec is parametrised by the
pair of message descriptors; its wire behaviour is part of the transport. -/
structure JsonCodec where
  input : String
  output : String
deriving DecidableEq, Repr

def JsonCodec.new (input output : String) : JsonCodec :=
  { input := input, output := output }

/-- The external tonic machinery a call runs against: channel readiness, the
metadata syntax checks, and the four wire-call entry points of
`tonic::client::Grpc` (each a function of the built request, the HTTP path and
the codec). Response streams appear as eagerly-materialised lists. -/
structure Transport where
  ready : Except String Unit
  validKey : String → Bool
  validValue : String → Bool
  unaryCall : TRequest Json → String → JsonCodec → Except Status Json
  serverStreamingCall :
    TRequest Json → String → JsonCodec → Except Status (List (Except Status Json))
  clientStreamingCall :
    TRequest (List Json) → String → JsonCodec → Except Status Json
  streamingCall :
    TRequest (List Json) → String → JsonCodec → Except Status (List (Except Status Json))

/-- One wire send: which entry point was driven, at which path, with which
payload (for request streams: the list of messages sent, in order). -/
inductive NetOp where
  | unarySend (path : String) (payload : Json)
  | serverStreamingSend (path : String) (payload : Json)
  | clientStreamingSend (path : String) (payloads : List Json)
  | streamingSend (path : String) (payloads : List Json)

/-- Embedding of `unary` (granc-core/src/client.rs lines 190-214): wait for readiness,
build the codec, path and request, drive the wire call; a peer status is
wrapped in the `Ok` layer. Also reports the wire sends performed. -/
def unary (t : Transport) (method : MethodDescriptor) (payload : Json)
    (headers : List (String × String)) :
    Except GrpcRequestError (Except Status Json) × List NetOp :=
  match t.ready with
  | .error e => (.error (.ClientNotReady e), [])
  | .ok () =>
    let codec := JsonCodec.new method.input method.output
    let path := http_path method
    match build_request t.validKey t.validValue payload headers with
    | .error e => (.error e, [])
    | .ok request =>
      (.ok (t.unaryCall request path codec), [.unarySend path request.payload])

/-- Embedding of `server_streaming` (granc-core/src/client.rs lines 223-250). -/
def server_streaming (t : Transport) (method : MethodDescriptor) (payload : Json)
    (headers : List (String × String)) :
    Except GrpcRequestError (Except Status (List (Except Status Json))) × List NetOp :=
  match t.ready with
  | .error e => (.error (.ClientNotReady e), [])
  | .ok () =>
    let codec := JsonCodec.new method.input method.output
    let path := http_path method
    match build_request t.validKey t.validValue payload headers with
    | .error e => (.error e, [])
    | .ok request =>
      (.ok (t.serverStreamingCall request path codec),
       [.serverStreamingSend path request.payload])

/-- Embedding of `client_streaming` (granc-core/src/client.rs lines 259-283): the payload
is a request stream, fed from a list. -/
def client_streaming (t : Transport) (method : MethodDescriptor)
    (payload_stream : List Json) (headers : List (String × String)) :
    Except GrpcRequestError (Except Status Json) × List NetOp :=
  match t.ready with
  | .error e => (.error (.ClientNotReady e), [])
  | .ok () =>
    let codec := JsonCodec.new method.input method.output
    let path := http_path method
    match build_request t.validKey t.validValue payload_stream headers with
    | .error e => (.error e, [])
    | .ok request =>
      (.ok (t.clientStreamingCall request path codec),
       [.clientStreamingSend path request.payload])

/-- Embedding of `bidirectional_streaming` (granc-core/src/client.rs lines 292-319). -/
def bidirectional_streaming (t : Transport) (method : MethodDescriptor)
    (payload_stream : List Json) (headers : List (String × String)) :
    Except GrpcRequestError (Except Status (List (Except Status Json))) × List NetOp :=
  match t.ready with
  | .error e => (.error (.ClientNotReady e), [])
  | .ok () =>
    let codec := JsonCodec.new method.input method.output
    let path := http_path method
    match build_request t.validKey t.validValue payload_stream headers with
    | .error e => (.error e, [])
    | .ok request =>
      (.ok (t.streamingCall request path codec),
       [.streamingSend path request.payload])

/-- Embedding of `dynamic` (granc-core/src/client.rs lines 145-182): dispatch on the two
cardinality flags. Server streams are collected eagerly (`stream.collect()`):
on a list model the collection is the list itself. Client streams are built by
`json_array_to_stream` before any transport interaction. -/
def dynamic (t : Transport) (method : MethodDescriptor) (payload : Json)
    (headers : List (String × String)) :
    Except GrpcRequestError DynamicResponse × List NetOp :=
  match method.is_client_streaming, method.is_server_streaming with
  | false, false =>
    match unary t method payload headers with
    | (.error e, ops) => (.error e, ops)
    | (.ok result, ops) => (.ok (.Unary result), ops)
  | false, true =>
    match server_streaming t method payload headers with
    | (.error e, ops) => (.error e, ops)
    | (.ok (.ok stream), ops) => (.ok (.Streaming (.ok stream)), ops)
    | (.ok (.error status), ops) => (.ok (.Streaming (.error status)), ops)
  | true, false =>
    match json_array_to_stream payload with
    | .error msg => (.error (.InvalidJson msg), [])
    | .ok input_stream =>
      match client_streaming t method input_stream headers with
      | (.error e, ops) => (.error e, ops)
      | (.ok result, ops) => (.ok (.Unary result), ops)
  | true, true =>
    match json_array_to_stream payload with
    | .error msg => (.error (.InvalidJson msg), [])
    | .ok input_stream =>
      match bidirectional_streaming t method input_stream headers with
      | (.error e, ops) => (.error e, ops)
      | (.ok (.ok stream), ops) => (.ok (.Streaming (.ok stream)), ops)
      | (.ok (.error status), ops) => (.ok (.Streaming (.error status)), ops)

/-- A `prost_reflect::ServiceDescriptor`: full name and methods. -/
structure ServiceDescriptor where
  full_name : String
  methods : List MethodDescriptor
deriving DecidableEq, Repr

/-- A resolved `prost_reflect::DescriptorPool` (decoding a file descriptor set
into a pool is external prost machinery; the embedding works on the resolved
pool). -/
structure DescriptorPool where
  services : List ServiceDescriptor
deriving DecidableEq, Repr

/-- Embedding of `DescriptorPool::get_service_by_name`: exact name lookup. -/
def get_service_by_name (pool : DescriptorPool) (name : String) :
    Option ServiceDescriptor :=
  pool.services.find? (fun s => s.full_name == name)

/-- Embedding of `DynamicRequestError` (granc-core/src/client.rs lines 27-49). The variants
carrying external error payloads (`Io`, `ReflectionResolve`,
`DescriptorError`) keep only an opaque message. -/
inductive DynamicRequestError where
  | InvalidInput (msg : String)
  | Io (msg : String)
  | ServiceNotFound (service : String)
  | MethodNotFound (method : String)
  | ReflectionResolve (msg : String)
  | DescriptorError (msg : String)
  | GrpcRequestError (e : GrpcRequestError)
deriving DecidableEq, Repr

/-- Embedding of `DynamicRequest` (granc-core/src/client.rs lines 71-77). The optional
`file_descriptor_set` bytes feed the external pool decoding; the embedding
receives the resolved pool separately. -/
structure DynamicRequest where
  body : Json
  headers : List (String × String)
  service : String
  method : String

namespace GrpcClient

/-- Embedding of `GrpcClient::dynamic` (granc-core/src/client.rs lines 112-142), from the
resolved descriptor pool on: look up the service by its fully qualified name,
then the method by its short name within that service, then dispatch. -/
def dynamic (t : Transport) (pool : DescriptorPool) (request : DynamicRequest) :
    Except DynamicRequestError DynamicResponse × List NetOp :=
  match get_service_by_name pool request.service with
  | none => (.error (.ServiceNotFound request.service), [])
  | some service =>
    match service.methods.find? (fun m => m.name == request.method) with
    | none => (.error (.MethodNotFound request.method), [])
    | some method =>
      match Granc.dynamic t method request.body request.headers with
      | (.error e, ops) => (.error (.GrpcRequestError e), ops)
      | (.ok r, ops) => (.ok r, ops)

end GrpcClient

/-- Embedding of `GrpcCallError` (granc-core/src/lib.rs lines 23-44), the error enum of the
sibling facade `Granc::call`; only the variants the claims mention carry data
here. -/
inductive GrpcCallError where
  | InvalidInput (msg : String)
  | ServiceNotFound (service : String)
  | MethodNotFound (method : String)
deriving DecidableEq, Repr

/-- Embedding of `json_array_to_stream` of the facade (granc-core/src/lib.rs lines
185-194): same shape check, surfaced as `GrpcCallError::InvalidInput`. -/
def facade_json_array_to_stream : Json → Except GrpcCallError (List Json)
  | .arr items => .ok items
  | _ => .error (.InvalidInput "Client streaming requires a JSON Array body")

/-- Embedding of `CoreError::InvalidInput` surface of `granc/src/core.rs` lines 154-163:
the CLI-core `json_array_to_stream` performs the identical shape check. -/
def core_json_array_to_stream : Json → Except String (List Json)
  | .arr items => .ok items
  | _ => .error "Client streaming requires a JSON Array body"

/-- Rust `Vec::dedup`: removes consecutive repeated elements, keeping the
first of each run. -/
def dedup [BEq α] : List α → List α
  | [] => []
  | [a] => [a]
  | a :: b :: rest =>
    if a == b then dedup (a :: rest) else a :: dedup (b :: rest)

/-- Embedding of `build_file_descriptor_set` (granc/src/reflection/remote.rs lines 84-99):
decode each raw blob into a `FileDescriptorProto` (external prost decoding;
the embedding receives the decoded files, identified here by their content),
push them in order, then call `Vec::dedup`. -/
def build_file_descriptor_set (files : List String) : List String :=
  dedup files

/-- Modelled from the spec: the error enum of the discovery (reflection)
client. The implementation of `ReflectionClient` /
`ReflectionResolveError` is not present under src/ (only its tests and
callers are); the variant names are those the in-repo tests match on
(`ServerStreamInitFailed`, `ServerStreamFailure`), and the shape follows
spec section 4.2: initiating the stream can fail (feature not available),
reading the stream can fail (resolution failure such as symbol not found). -/
inductive ReflectionResolveError where
  | ServerStreamInitFailed (status : Status)
  | ServerStreamFailure (status : Status)
deriving DecidableEq, Repr

/-- Modelled from the spec: the observable behaviour of a peer's discovery
endpoint. `stream_init` is the outcome of the very first stream call (a peer
that never initialized the discovery service fails it with a
feature-not-available status); `reply` is, per requested symbol, either the
file blobs containing it or the status failing the stream (symbol not
found). -/
structure DiscoveryPeer where
  stream_init : Except Status Unit
  reply : String → Except Status (List String)

/-- Modelled from the spec: `ReflectionClient` symbol resolution (spec
section 4.2), absent from src/. Initiate the long-lived stream; if that very
first call fails, surface `ServerStreamInitFailed` without reading any
response; otherwise read exactly one response for the symbol: a stream
failure surfaces as `ServerStreamFailure`, file blobs are merged into a
bundle. The second component counts the responses read. -/
def file_descriptor_set_by_symbol (peer : DiscoveryPeer) (symbol : String) :
    Except ReflectionResolveError (List String) × Nat :=
  match peer.stream_init with
  | .error status => (.error (.ServerStreamInitFailed status), 0)
  | .ok () =>
    match peer.reply symbol with
    | .error status => (.error (.ServerStreamFailure status), 1)
    | .ok blobs => (.ok (build_file_descriptor_set blobs), 1)

/-! Helper lemmas about the embedded definitions. -/

theorem buildRequestGo_payload (validKey validValue : String → Bool) :
    ∀ (headers : List (String × String)) (req r : TRequest α),
      buildRequestGo validKey validValue headers req = .ok r →
      r.payload = req.payload := by
  intro headers
  induction headers with
  | nil =>
    intro req r h
    simp only [buildRequestGo] at h
    cases h
    rfl
  | cons p rest ih =>
    intro req r h
    obtain ⟨k, v⟩ := p
    simp only [buildRequestGo] at h
    by_cases hk : validKey k = true
    · by_cases hv : validValue v = true
      · rw [hk, hv] at h
        simp only [if_true] at h
        exact ih { payload := req.payload, metadata := insertMeta req.metadata k v } r h
      · rw [hk] at h
        simp only [if_true] at h
        rw [if_neg hv] at h
        cases h
    · rw [if_neg hk] at h
      cases h

theorem build_request_payload (validKey validValue : String → Bool)
    (payload : α) (headers : List (String × String)) (r : TRequest α)
    (h : build_request validKey validValue payload headers = .ok r) :
    r.payload = payload :=
  buildRequestGo_payload validKey validValue headers _ r h

theorem unary_eq_of_ready_of_build (t : Transport) (m : MethodDescriptor)
    (p : Json) (hs : List (String × String)) (req : TRequest Json)
    (hready : t.ready = .ok ())
    (hbuild : build_request t.validKey t.validValue p hs = .ok req) :
    unary t m p hs =
      (.ok (t.unaryCall req (http_path m) (JsonCodec.new m.input m.output)),
       [.unarySend (http_path m) req.payload]) := by
  unfold unary
  rw [hready, hbuild]

theorem unary_eq_of_not_ready (t : Transport) (m : MethodDescriptor)
    (p : Json) (hs : List (String × String)) (e : String)
    (hready : t.ready = .error e) :
    unary t m p hs = (.error (.ClientNotReady e), []) := by
  unfold unary
  rw [hready]

theorem unary_eq_of_build_error (t : Transport) (m : MethodDescriptor)
    (p : Json) (hs : List (String × String)) (e : GrpcRequestError)
    (hready : t.ready = .ok ())
    (hbuild : build_request t.validKey t.validValue p hs = .error e) :
    unary t m p hs = (.error e, []) := by
  unfold unary
  rw [hready, hbuild]

theorem server_streaming_eq_of_ready_of_build (t : Transport)
    (m : MethodDescriptor) (p : Json) (hs : List (String × String))
    (req : TRequest Json)
    (hready : t.ready = .ok ())
    (hbuild : build_request t.validKey t.validValue p hs = .ok req) :
    server_streaming t m p hs =
      (.ok (t.serverStreamingCall req (http_path m)
         (JsonCodec.new m.input m.output)),
       [.serverStreamingSend (http_path m) req.payload]) := by
  unfold server_streaming
  rw [hready, hbuild]

theorem server_streaming_eq_of_not_ready (t : Transport)
    (m : MethodDescriptor) (p : Json) (hs : List (String × String))
    (e : String) (hready : t.ready = .error e) :
    server_streaming t m p hs = (.error (.ClientNotReady e), []) := by
  unfold server_streaming
  rw [hready]

theorem server_streaming_eq_of_build_error (t : Transport)
    (m : MethodDescriptor) (p : Json) (hs : List (String × String))
    (e : GrpcRequestError)
    (hready : t.ready = .ok ())
    (hbuild : build_request t.validKey t.validValue p hs = .error e) :
    server_streaming t m p hs = (.error e, []) := by
  unfold server_streaming
  rw [hready, hbuild]

theorem client_streaming_eq_of_ready_of_build (t : Transport)
    (m : MethodDescriptor) (items : List Json) (hs : List (String × String))
    (req : TRequest (List Json))
    (hready : t.ready = .ok ())
    (hbuild : build_request t.validKey t.validValue items hs = .ok req) :
    client_streaming t m items hs =
      (.ok (t.clientStreamingCall req (http_path m)
         (JsonCodec.new m.input m.output)),
       [.clientStreamingSend (http_path m) req.payload]) := by
  unfold client_streaming
  rw [hready, hbuild]

theorem client_streaming_eq_of_not_ready (t : Transport)
    (m : MethodDescriptor) (items : List Json) (hs : List (String × String))
    (e : String) (hready : t.ready = .error e) :
    client_streaming t m items hs = (.error (.ClientNotReady e), []) := by
  unfold client_streaming
  rw [hready]

theorem client_streaming_eq_of_build_error (t : Transport)
    (m : MethodDescriptor) (items : List Json) (hs : List (String × String))
    (e : GrpcRequestError)
    (hready : t.ready = .ok ())
    (hbuild : build_request t.validKey t.validValue items hs = .error e) :
    client_streaming t m items hs = (.error e, []) := by
  unfold client_streaming
  rw [hready, hbuild]

theorem bidirectional_streaming_eq_of_ready_of_build (t : Transport)
    (m : MethodDescriptor) (items : List Json) (hs : List (String × String))
    (req : TRequest (List Json))
    (hready : t.ready = .ok ())
    (hbuild : build_request t.validKey t.validValue items hs = .ok req) :
    bidirectional_streaming t m items hs =
      (.ok (t.streamingCall req (http_path m)
         (JsonCodec.new m.input m.output)),
       [.streamingSend (http_path m) req.payload]) := by
  unfold bidirectional_streaming
  rw [hready, hbuild]

theorem json_array_to_stream_eq_error (p : Json)
    (hp : ∀ items, p ≠ Json.arr items) :
    json_array_to_stream p =
      .error "Client streaming requires a JSON Array body" := by
  cases p with
  | arr items => exact absurd rfl (hp items)
  | null => rfl
  | bool b => rfl
  | num n => rfl
  | str s => rfl
  | obj fields => rfl

theorem json_array_to_stream_eq_ok_iff (p : Json) (items : List Json) :
    json_array_to_stream p = .ok items ↔ p = .arr items := by
  constructor
  · intro h
    cases p with
    | arr its =>
      simp only [json_array_to_stream] at h
      cases h
      rfl
    | null => simp only [json_array_to_stream] at h; cases h
    | bool b => simp only [json_array_to_stream] at h; cases h
    | num n => simp only [json_array_to_stream] at h; cases h
    | str s => simp only [json_array_to_stream] at h; cases h
    | obj fields => simp only [json_array_to_stream] at h; cases h
  · intro h
    subst h
    rfl

theorem dynamic_unary_ok (t : Transport) (m : MethodDescriptor) (p : Json)
    (hs : List (String × String)) (req : TRequest Json)
    (hc : m.is_client_streaming = false) (hsrv : m.is_server_streaming = false)
    (hready : t.ready = .ok ())
    (hbuild : build_request t.validKey t.validValue p hs = .ok req) :
    dynamic t m p hs =
      (.ok (.Unary (t.unaryCall req (http_path m) (JsonCodec.new m.input m.output))),
       [.unarySend (http_path m) req.payload]) := by
  unfold dynamic
  rw [hc, hsrv, unary_eq_of_ready_of_build t m p hs req hready hbuild]

theorem dynamic_unary_not_ready (t : Transport) (m : MethodDescriptor)
    (p : Json) (hs : List (String × String)) (e : String)
    (hc : m.is_client_streaming = false) (hsrv : m.is_server_streaming = false)
    (hready : t.ready = .error e) :
    dynamic t m p hs = (.error (.ClientNotReady e), []) := by
  unfold dynamic
  rw [hc, hsrv, unary_eq_of_not_ready t m p hs e hready]

theorem dynamic_unary_build_error (t : Transport) (m : MethodDescriptor)
    (p : Json) (hs : List (String × String)) (e : GrpcRequestError)
    (hc : m.is_client_streaming = false) (hsrv : m.is_server_streaming = false)
    (hready : t.ready = .ok ())
    (hbuild : build_request t.validKey t.validValue p hs = .error e) :
    dynamic t m p hs = (.error e, []) := by
  unfold dynamic
  rw [hc, hsrv, unary_eq_of_build_error t m p hs e hready hbuild]

theorem dynamic_server_streaming_ok (t : Transport) (m : MethodDescriptor)
    (p : Json) (hs : List (String × String)) (req : TRequest Json)
    (hc : m.is_client_streaming = false) (hsrv : m.is_server_streaming = true)
    (hready : t.ready = .ok ())
    (hbuild : build_request t.validKey t.validValue p hs = .ok req) :
    dynamic t m p hs =
      (.ok (.Streaming (t.serverStreamingCall req (http_path m)
         (JsonCodec.new m.input m.output))),
       [.serverStreamingSend (http_path m) req.payload]) := by
  unfold dynamic
  rw [hc, hsrv, server_streaming_eq_of_ready_of_build t m p hs req hready hbuild]
  cases t.serverStreamingCall req (http_path m) (JsonCodec.new m.input m.output) <;> rfl

theorem dynamic_server_streaming_build_error (t : Transport)
    (m : MethodDescriptor) (p : Json) (hs : List (String × String))
    (e : GrpcRequestError)
    (hc : m.is_client_streaming = false) (hsrv : m.is_server_streaming = true)
    (hready : t.ready = .ok ())
    (hbuild : build_request t.validKey t.validValue p hs = .error e) :
    dynamic t m p hs = (.error e, []) := by
  unfold dynamic
  rw [hc, hsrv, server_streaming_eq_of_build_error t m p hs e hready hbuild]

theorem dynamic_client_streaming_ok (t : Transport) (m : MethodDescriptor)
    (items : List Json) (hs : List (String × String)) (req : TRequest (List Json))
    (hc : m.is_client_streaming = true) (hsrv : m.is_server_streaming = false)
    (hready : t.ready = .ok ())
    (hbuild : build_request t.validKey t.validValue items hs = .ok req) :
    dynamic t m (.arr items) hs =
      (.ok (.Unary (t.clientStreamingCall req (http_path m)
         (JsonCodec.new m.input m.output))),
       [.clientStreamingSend (http_path m) req.payload]) := by
  unfold dynamic
  rw [hc, hsrv]
  simp only [json_array_to_stream]
  rw [client_streaming_eq_of_ready_of_build t m items hs req hready hbuild]

theorem dynamic_client_streaming_build_error (t : Transport)
    (m : MethodDescriptor) (items : List Json) (hs : List (String × String))
    (e : GrpcRequestError)
    (hc : m.is_client_streaming = true) (hsrv : m.is_server_streaming = false)
    (hready : t.ready = .ok ())
    (hbuild : build_request t.validKey t.validValue items hs = .error e) :
    dynamic t m (.arr items) hs = (.error e, []) := by
  unfold dynamic
  rw [hc, hsrv]
  simp only [json_array_to_stream]
  rw [client_streaming_eq_of_build_error t m items hs e hready hbuild]

theorem dynamic_bidirectional_ok (t : Transport) (m : MethodDescriptor)
    (items : List Json) (hs : List (String × String)) (req : TRequest (List Json))
    (hc : m.is_client_streaming = true) (hsrv : m.is_server_streaming = true)
    (hready : t.ready = .ok ())
    (hbuild : build_request t.validKey t.validValue items hs = .ok req) :
    dynamic t m (.arr items) hs =
      (.ok (.Streaming (t.streamingCall req (http_path m)
         (JsonCodec.new m.input m.output))),
       [.streamingSend (http_path m) req.payload]) := by
  unfold dynamic
  rw [hc, hsrv]
  simp only [json_array_to_stream]
  rw [bidirectional_streaming_eq_of_ready_of_build t m items hs req hready hbuild]
  cases t.streamingCall req (http_path m) (JsonCodec.new m.input m.output) <;> rfl

/-- The value paired with the last occurrence of a key in a header list
(later pairs take priority). -/
def lastVal : List (String × String) → String → Option String
  | [], _ => none
  | (a, b) :: rest, k => (lastVal rest k).or (if a == k then some b else none)

theorem getMeta_cons (a b k : String) (m : List (String × String)) :
    getMeta ((a, b) :: m) k = if a = k then some b else getMeta m k := by
  unfold getMeta
  by_cases h : a = k
  · rw [List.find?_cons_of_pos _ (by simp [h])]
    simp [h]
  · rw [List.find?_cons_of_neg _ (by simp [h])]
    rw [if_neg h]

theorem getMeta_map_replace (k' v' k : String) (m : List (String × String)) :
    getMeta (m.map (fun p => if p.1 == k' then (k', v') else p)) k =
      if k = k' then (getMeta m k').map (fun _ => v') else getMeta m k := by
  induction m with
  | nil => by_cases hk : k = k' <;> simp [getMeta, hk]
  | cons p m ih =>
    obtain ⟨a, b⟩ := p
    simp only [List.map_cons]
    by_cases ha : a = k'
    · have hhead : (if ((a, b).1 == k') = true then (k', v') else (a, b)) = (k', v') := by
        simp [ha]
      rw [hhead]
      by_cases hk : k = k'
      · rw [if_pos hk]
        rw [getMeta_cons, getMeta_cons]
        rw [if_pos hk.symm, if_pos ha]
        simp
      · rw [if_neg hk]
        rw [getMeta_cons, getMeta_cons]
        have h1 : ¬ k' = k := fun h => hk h.symm
        have h2 : ¬ a = k := fun h => hk (h.symm.trans ha)
        rw [if_neg h1, if_neg h2]
        have h3 := ih
        rw [if_neg hk] at h3
        exact h3
    · have hhead : (if ((a, b).1 == k') = true then (k', v') else (a, b)) = (a, b) := by
        simp [ha]
      rw [hhead]
      by_cases hk : k = k'
      · rw [if_pos hk]
        rw [getMeta_cons, getMeta_cons]
        have h3 : ¬ a = k := fun h => ha (h.trans hk)
        rw [if_neg h3, if_neg ha]
        have h4 := ih
        rw [if_pos hk] at h4
        exact h4
      · rw [if_neg hk]
        rw [getMeta_cons, getMeta_cons]
        by_cases h2 : a = k
        · rw [if_pos h2, if_pos h2]
        · rw [if_neg h2, if_neg h2]
          have h4 := ih
          rw [if_neg hk] at h4
          exact h4

theorem getMeta_insertMeta (m : List (String × String)) (k' v' k : String) :
    getMeta (insertMeta m k' v') k = if k = k' then some v' else getMeta m k := by
  unfold insertMeta
  by_cases hany : m.any (fun p => p.1 == k') = true
  · rw [if_pos hany]
    rw [getMeta_map_replace]
    by_cases hk : k = k'
    · rw [if_pos hk, if_pos hk]
      obtain ⟨x, hx, hpx⟩ := List.any_eq_true.mp hany
      have hsome : (m.find? (fun p => p.1 == k')).isSome :=
        List.find?_isSome.mpr ⟨x, hx, hpx⟩
      obtain ⟨y, hy⟩ := Option.isSome_iff_exists.mp hsome
      simp [getMeta, hy]
    · rw [if_neg hk, if_neg hk]
  · rw [if_neg hany]
    have hall : ∀ x ∈ m, ¬ (x.1 == k') = true :=
      List.any_eq_false.mp (Bool.eq_false_iff.mpr hany)
    unfold getMeta
    rw [List.find?_append]
    by_cases hk : k = k'
    · subst hk
      have hnone : m.find? (fun p => p.1 == k) = none :=
        List.find?_eq_none.mpr hall
      simp [hnone]
    · have h1 : List.find? (fun p => p.1 == k) [(k', v')] = none := by
        rw [List.find?_cons_of_neg _ (by simp [Ne.symm hk])]
        rfl
      rw [h1, Option.or_none, if_neg hk]

theorem getMeta_foldl_insert (k : String) :
    ∀ (headers m0 : List (String × String)),
      getMeta (headers.foldl (fun m p => insertMeta m p.1 p.2) m0) k =
        (lastVal headers k).or (getMeta m0 k) := by
  intro headers
  induction headers with
  | nil => intro m0; simp [lastVal]
  | cons p rest ih =>
    intro m0
    obtain ⟨a, b⟩ := p
    rw [List.foldl_cons]
    rw [ih (insertMeta m0 a b)]
    rw [getMeta_insertMeta]
    show _ = ((lastVal rest k).or (if a == k then some b else none)).or (getMeta m0 k)
    rw [Option.or_assoc]
    congr 1
    by_cases hk : k = a
    · simp [hk]
    · have h1 : (a == k) = false := by simp [Ne.symm hk]
      rw [if_neg hk, h1]
      rfl

theorem length_filter_map_replace (k' v' k : String)
    (m : List (String × String)) :
    ((m.map (fun p => if p.1 == k' then (k', v') else p)).filter
        (fun p => p.1 == k)).length =
      (m.filter (fun p => p.1 == k)).length := by
  induction m with
  | nil => rfl
  | cons p m ih =>
    obtain ⟨a, b⟩ := p
    simp only [List.map_cons]
    by_cases ha : a = k'
    · have hhead : (if ((a, b).1 == k') = true then (k', v') else (a, b)) = (k', v') := by
        simp [ha]
      rw [hhead]
      rw [List.filter_cons, List.filter_cons]
      by_cases h2 : a = k
      · have h3 : k' = k := ha.symm.trans h2
        simp only [h3, h2]
        simp only [beq_self_eq_true, if_pos rfl]
        simp
        simpa [h3] using ih
      · have h3 : ¬ k' = k := fun h => h2 (ha.trans h)
        simp [h3, h2]
        simpa using ih
    · have hhead : (if ((a, b).1 == k') = true then (k', v') else (a, b)) = (a, b) := by
        simp [ha]
      rw [hhead]
      rw [List.filter_cons, List.filter_cons]
      by_cases h2 : a = k
      · simp [h2]
        simpa using ih
      · simp [h2]
        simpa using ih

theorem countKey_insertMeta_le (m : List (String × String)) (k' v' k : String)
    (hm : (m.filter (fun p => p.1 == k)).length ≤ 1) :
    ((insertMeta m k' v').filter (fun p => p.1 == k)).length ≤ 1 := by
  unfold insertMeta
  by_cases hany : m.any (fun p => p.1 == k') = true
  · rw [if_pos hany, length_filter_map_replace]
    exact hm
  · rw [if_neg hany, List.filter_append, List.length_append]
    by_cases hk : k' = k
    · subst hk
      have hnil : m.filter (fun p => p.1 == k') = [] :=
        List.filter_eq_nil_iff.mpr (List.any_eq_false.mp (Bool.eq_false_iff.mpr hany))
      rw [hnil]
      simp
    · have hone : List.filter (fun p => p.1 == k) [(k', v')] = [] := by
        simp [hk]
      rw [hone]
      simpa using hm

theorem countKey_foldl_insert_le (k : String) :
    ∀ (headers m0 : List (String × String)),
      (m0.filter (fun p => p.1 == k)).length ≤ 1 →
      (((headers.foldl (fun m p => insertMeta m p.1 p.2) m0)).filter
          (fun p => p.1 == k)).length ≤ 1 := by
  intro headers
  induction headers with
  | nil => intro m0 h; exact h
  | cons p rest ih =>
    intro m0 h
    rw [List.foldl_cons]
    exact ih _ (countKey_insertMeta_le m0 p.1 p.2 k h)

theorem buildRequestGo_ok_of_valid (validKey validValue : String → Bool) :
    ∀ (headers : List (String × String)) (req : TRequest α),
      (∀ p ∈ headers, validKey p.1 = true ∧ validValue p.2 = true) →
      buildRequestGo validKey validValue headers req =
        .ok { payload := req.payload,
              metadata := headers.foldl (fun m p => insertMeta m p.1 p.2) req.metadata } := by
  intro headers
  induction headers with
  | nil => intro req hvalid; rfl
  | cons p rest ih =>
    intro req hvalid
    obtain ⟨k, v⟩ := p
    obtain ⟨hk, hv⟩ := hvalid (k, v) (List.mem_cons_self _ _)
    simp only [buildRequestGo, hk, hv, if_true]
    rw [ih _ (fun q hq => hvalid q (List.mem_cons_of_mem _ hq))]
    rfl

theorem buildRequestGo_valid_of_ok (validKey validValue : String → Bool) :
    ∀ (headers : List (String × String)) (req r : TRequest α),
      buildRequestGo validKey validValue headers req = .ok r →
      ∀ p ∈ headers, validKey p.1 = true ∧ validValue p.2 = true := by
  intro headers
  induction headers with
  | nil => intro req r _ p hp; cases hp
  | cons q rest ih =>
    intro req r h p hp
    obtain ⟨k, v⟩ := q
    simp only [buildRequestGo] at h
    by_cases hk : validKey k = true
    · by_cases hv : validValue v = true
      · rw [hk, hv] at h
        simp only [if_true] at h
        rcases List.mem_cons.mp hp with rfl | hp'
        · exact ⟨hk, hv⟩
        · exact ih _ r h p hp'
      · rw [hk] at h
        simp only [if_true] at h
        rw [if_neg hv] at h
        cases h
    · rw [if_neg hk] at h
      cases h

theorem buildRequestGo_error_names_key (validKey validValue : String → Bool) :
    ∀ (headers : List (String × String)) (req : TRequest α) (e : GrpcRequestError),
      buildRequestGo validKey validValue headers req = .error e →
      (∃ k v, (k, v) ∈ headers ∧ validKey k = false ∧
        e = .InvalidMetadataKey k) ∨
      (∃ k v, (k, v) ∈ headers ∧ validKey k = true ∧ validValue v = false ∧
        e = .InvalidMetadataValue k) := by
  intro headers
  induction headers with
  | nil => intro req e h; cases h
  | cons q rest ih =>
    intro req e h
    obtain ⟨k, v⟩ := q
    simp only [buildRequestGo] at h
    by_cases hk : validKey k = true
    · by_cases hv : validValue v = true
      · rw [hk, hv] at h
        simp only [if_true] at h
        rcases ih _ e h with ⟨k', v', hmem, hbad, he⟩ | ⟨k', v', hmem, hgood, hbad, he⟩
        · exact .inl ⟨k', v', List.mem_cons_of_mem _ hmem, hbad, he⟩
        · exact .inr ⟨k', v', List.mem_cons_of_mem _ hmem, hgood, hbad, he⟩
      · rw [hk] at h
        simp only [if_true] at h
        rw [if_neg hv] at h
        cases h
        exact .inr ⟨k, v, List.mem_cons_self _ _, hk,
          Bool.eq_false_iff.mpr hv, rfl⟩
    · rw [if_neg hk] at h
      cases h
      exact .inl ⟨k, v, List.mem_cons_self _ _, Bool.eq_false_iff.mpr hk, rfl⟩

theorem dynamic_non_array_shape_error (t : Transport) (m : MethodDescriptor)
    (p : Json) (hs : List (String × String))
    (hc : m.is_client_streaming = true)
    (hp : ∀ items, p ≠ Json.arr items) :
    dynamic t m p hs =
      (.error (.InvalidJson "Client streaming requires a JSON Array body"), []) := by
  unfold dynamic
  rw [hc]
  cases hsrv : m.is_server_streaming
  · rw [json_array_to_stream_eq_error p hp]
  · rw [json_array_to_stream_eq_error p hp]

/-! Concrete sample data used by the witness theorems. -/

/-- The `echo.EchoService/UnaryEcho` method of the repository's test service. -/
def mUnaryEcho : MethodDescriptor :=
  { parent_service_full_name := "echo.EchoService", name := "UnaryEcho",
    input := "EchoRequest", output := "EchoResponse",
    is_client_streaming := false, is_server_streaming := false }

/-- The `echo.EchoService/ServerStreamingEcho` method. -/
def mServerStreamingEcho : MethodDescriptor :=
  { parent_service_full_name := "echo.EchoService", name := "ServerStreamingEcho",
    input := "EchoRequest", output := "EchoResponse",
    is_client_streaming := false, is_server_streaming := true }

/-- The `echo.EchoService/ClientStreamingEcho` method. -/
def mClientStreamingEcho : MethodDescriptor :=
  { parent_service_full_name := "echo.EchoService", name := "ClientStreamingEcho",
    input := "EchoRequest", output := "EchoResponse",
    is_client_streaming := true, is_server_streaming := false }

/-- The `echo.EchoService/BidirectionalEcho` method. -/
def mBidirectionalEcho : MethodDescriptor :=
  { parent_service_full_name := "echo.EchoService", name := "BidirectionalEcho",
    input := "EchoRequest", output := "EchoResponse",
    is_client_streaming := true, is_server_streaming := true }

/-- A transport whose calls all succeed, echoing test-service behaviour. -/
def tEcho : Transport :=
  { ready := .ok ()
    validKey := fun _ => true
    validValue := fun _ => true
    unaryCall := fun req _ _ => .ok req.payload
    serverStreamingCall := fun req _ _ => .ok [.ok req.payload, .ok req.payload]
    clientStreamingCall := fun req _ _ => .ok (.num (Int.ofNat req.payload.length))
    streamingCall := fun req _ _ => .ok (req.payload.map Except.ok) }

/-- A transport that accepts only the header key "k1", mirroring a metadata
syntax check that rejects one concrete key. -/
def tBadKey : Transport :=
  { tEcho with validKey := fun k => k == "k1" }

/-- CLAIM C6: building the request validates every (key, value) header pair;
any invalid pair fails the call, before any wire send, with an error naming
the offending key, and a request is built only when every pair is valid. -/
theorem claim_header_validation (vk vv : String → Bool) (payload : Json)
    (headers : List (String × String)) :
    ((∀ q ∈ headers, vk q.1 = true ∧ vv q.2 = true) →
      ∃ req, build_request vk vv payload headers = .ok req)
    ∧
    (∀ req, build_request vk vv payload headers = .ok req →
      ∀ q ∈ headers, vk q.1 = true ∧ vv q.2 = true)
    ∧
    (∀ e, build_request vk vv payload headers = .error e →
      (∃ k v, (k, v) ∈ headers ∧ vk k = false ∧ e = .InvalidMetadataKey k) ∨
      (∃ k v, (k, v) ∈ headers ∧ vk k = true ∧ vv v = false ∧
        e = .InvalidMetadataValue k))
    ∧
    (∀ (t : Transport) (m : MethodDescriptor) (e : GrpcRequestError),
      t.validKey = vk → t.validValue = vv →
      m.is_client_streaming = false →
      t.ready = .ok () →
      build_request vk vv payload headers = .error e →
      dynamic t m payload headers = (.error e, [])) := by
  refine ⟨?_, ?_, ?_, ?_⟩
  · intro hvalid
    exact ⟨_, buildRequestGo_ok_of_valid vk vv headers
      { payload := payload, metadata := [] } hvalid⟩
  · intro req hok q hq
    exact buildRequestGo_valid_of_ok vk vv headers _ req hok q hq
  · intro e herr
    exact buildRequestGo_error_names_key vk vv headers _ e herr
  · intro t m e hvk hvv hc hready hbuild
    have hbuild' : build_request t.validKey t.validValue payload headers = .error e := by
      rw [hvk, hvv]; exact hbuild
    cases hsrv : m.is_server_streaming
    · exact dynamic_unary_build_error t m payload headers e hc hsrv hready hbuild'
    · exact dynamic_server_streaming_build_error t m payload headers e hc hsrv hready hbuild'

/-- Witness for C6 at a concrete invalid header key: the call fails with the
offending key named and performs no wire send. -/
theorem claim_header_validation_witness :
    dynamic tBadKey mUnaryEcho (Json.obj []) [("k1", "a"), ("bad key", "b")] =
      (.error (.InvalidMetadataKey "bad key"), []) :=
  (claim_header_validation tBadKey.validKey tBadKey.validValue (Json.obj [])
      [("k1", "a"), ("bad key", "b")]).2.2.2 tBadKey mUnaryEcho
    (.InvalidMetadataKey "bad key") rfl rfl rfl rfl rfl

/-- CLAIM C10: with syntactically valid headers, the built request's metadata
maps each key to the value of the last pair carrying that key in the list,
and stores at most one entry per key. -/
theorem claim_duplicate_header_last_wins (vk vv : String → Bool) (payload : Json)
    (headers : List (String × String))
    (hvalid : ∀ q ∈ headers, vk q.1 = true ∧ vv q.2 = true) :
    ∃ req, build_request vk vv payload headers = .ok req ∧
      (∀ k, getMeta req.metadata k = lastVal headers k) ∧
      (∀ k, (req.metadata.filter (fun q => q.1 == k)).length ≤ 1) := by
  refine ⟨_, buildRequestGo_ok_of_valid vk vv headers
    { payload := payload, metadata := [] } hvalid, ?_, ?_⟩
  · intro k
    show getMeta (headers.foldl (fun m q => insertMeta m q.1 q.2) []) k = _
    rw [getMeta_foldl_insert]
    show (lastVal headers k).or (getMeta [] k) = lastVal headers k
    rw [show getMeta [] k = none from rfl, Option.or_none]
  · intro k
    exact countKey_foldl_insert_le k headers [] (by simp)

/-- Witness for C10: the key "k1" appears twice; the metadata retains the
second value "b". -/
theorem claim_duplicate_header_last_wins_witness :
    ∃ req, build_request (fun _ => true) (fun _ => true) (Json.obj [])
        [("k1", "a"), ("k1", "b")] = .ok req ∧
      (∀ k, getMeta req.metadata k = lastVal [("k1", "a"), ("k1", "b")] k) ∧
      (∀ k, (req.metadata.filter (fun q => q.1 == k)).length ≤ 1) :=
  claim_duplicate_header_last_wins (fun _ => true) (fun _ => true) (Json.obj [])
    [("k1", "a"), ("k1", "b")] (fun _ _ => ⟨rfl, rfl⟩)

/-- CLAIM C1: dispatch is purely a function of the two cardinality flags:
(false,false) performs one unary request and yields a single-value outcome;
(false,true) performs one request and yields the server's response sequence
as an ordered list; (true,false) requires a JSON array, sends its elements in
array order as the request stream, and yields a single-value outcome;
(true,true) requires a JSON array and yields an ordered list; a non-array
payload for a client-streaming method never reaches the wire. -/
theorem claim_dispatch_by_cardinality (t : Transport) (m : MethodDescriptor)
    (p : Json) (hs : List (String × String)) :
    (∀ req, m.is_client_streaming = false → m.is_server_streaming = false →
      t.ready = .ok () →
      build_request t.validKey t.validValue p hs = .ok req →
      dynamic t m p hs =
        (.ok (.Unary (t.unaryCall req (http_path m) (JsonCodec.new m.input m.output))),
         [.unarySend (http_path m) req.payload]))
    ∧
    (∀ req, m.is_client_streaming = false → m.is_server_streaming = true →
      t.ready = .ok () →
      build_request t.validKey t.validValue p hs = .ok req →
      dynamic t m p hs =
        (.ok (.Streaming (t.serverStreamingCall req (http_path m)
           (JsonCodec.new m.input m.output))),
         [.serverStreamingSend (http_path m) req.payload]))
    ∧
    (∀ items req, m.is_client_streaming = true → m.is_server_streaming = false →
      p = .arr items →
      t.ready = .ok () →
      build_request t.validKey t.validValue items hs = .ok req →
      req.payload = items ∧
      dynamic t m p hs =
        (.ok (.Unary (t.clientStreamingCall req (http_path m)
           (JsonCodec.new m.input m.output))),
         [.clientStreamingSend (http_path m) items]))
    ∧
    (∀ items req, m.is_client_streaming = true → m.is_server_streaming = true →
      p = .arr items →
      t.ready = .ok () →
      build_request t.validKey t.validValue items hs = .ok req →
      req.payload = items ∧
      dynamic t m p hs =
        (.ok (.Streaming (t.streamingCall req (http_path m)
           (JsonCodec.new m.input m.output))),
         [.streamingSend (http_path m) items]))
    ∧
    (m.is_client_streaming = true → (∀ items, p ≠ Json.arr items) →
      dynamic t m p hs =
        (.error (.InvalidJson "Client streaming requires a JSON Array body"), [])) := by
  refine ⟨?_, ?_, ?_, ?_, ?_⟩
  · intro req hc hsrv hready hbuild
    exact dynamic_unary_ok t m p hs req hc hsrv hready hbuild
  · intro req hc hsrv hready hbuild
    exact dynamic_server_streaming_ok t m p hs req hc hsrv hready hbuild
  · intro items req hc hsrv hp hready hbuild
    have hpay := build_request_payload t.validKey t.validValue items hs req hbuild
    subst hp
    refine ⟨hpay, ?_⟩
    rw [dynamic_client_streaming_ok t m items hs req hc hsrv hready hbuild, hpay]
  · intro items req hc hsrv hp hready hbuild
    have hpay := build_request_payload t.validKey t.validValue items hs req hbuild
    subst hp
    refine ⟨hpay, ?_⟩
    rw [dynamic_bidirectional_ok t m items hs req hc hsrv hready hbuild, hpay]
  · intro hc hp
    exact dynamic_non_array_shape_error t m p hs hc hp

/-- Witness for C1 at the unary flag combination with a concrete transport:
exactly one unary send, and the outcome wraps the transport's single value. -/
theorem claim_dispatch_by_cardinality_witness :
    dynamic tEcho mUnaryEcho (Json.obj [("message", Json.str "hello")]) [] =
      (.ok (.Unary (tEcho.unaryCall
         { payload := Json.obj [("message", Json.str "hello")], metadata := [] }
         (http_path mUnaryEcho) (JsonCodec.new "EchoRequest" "EchoResponse"))),
       [.unarySend (http_path mUnaryEcho) (Json.obj [("message", Json.str "hello")])]) :=
  (claim_dispatch_by_cardinality tEcho mUnaryEcho
      (Json.obj [("message", Json.str "hello")]) []).1
    { payload := Json.obj [("message", Json.str "hello")], metadata := [] }
    rfl rfl rfl rfl

/-- CLAIM C2: for every client-streaming method (including bidirectional), a
non-array structured payload fails the call with the request-shape error
(`InvalidJson` in granc-core/src/client.rs, `InvalidInput` in the facade and
CLI-core layers) and performs no wire send at all. -/
theorem claim_non_array_payload_fails_before_io (t : Transport)
    (m : MethodDescriptor) (p : Json) (hs : List (String × String))
    (hc : m.is_client_streaming = true)
    (hp : ∀ items, p ≠ Json.arr items) :
    dynamic t m p hs =
      (.error (.InvalidJson "Client streaming requires a JSON Array body"), [])
    ∧ facade_json_array_to_stream p =
        .error (.InvalidInput "Client streaming requires a JSON Array body")
    ∧ core_json_array_to_stream p =
        .error "Client streaming requires a JSON Array body" := by
  refine ⟨dynamic_non_array_shape_error t m p hs hc hp, ?_, ?_⟩
  · cases p with
    | arr items => exact absurd rfl (hp items)
    | null => rfl
    | bool b => rfl
    | num n => rfl
    | str s => rfl
    | obj fields => rfl
  · cases p with
    | arr items => exact absurd rfl (hp items)
    | null => rfl
    | bool b => rfl
    | num n => rfl
    | str s => rfl
    | obj fields => rfl

/-- Witness for C2: an object payload against the bidirectional method fails
with the shape error and an empty send trace. -/
theorem claim_non_array_payload_fails_before_io_witness :
    dynamic tEcho mBidirectionalEcho
        (Json.obj [("message", Json.str "not array")]) [] =
      (.error (.InvalidJson "Client streaming requires a JSON Array body"), [])
    ∧ facade_json_array_to_stream (Json.obj [("message", Json.str "not array")]) =
        .error (.InvalidInput "Client streaming requires a JSON Array body")
    ∧ core_json_array_to_stream (Json.obj [("message", Json.str "not array")]) =
        .error "Client streaming requires a JSON Array body" :=
  claim_non_array_payload_fails_before_io tEcho mBidirectionalEcho
    (Json.obj [("message", Json.str "not array")]) [] rfl
    (fun _ h => Json.noConfusion h)

/-- A transport whose calls all fail with a peer status, for the C3 witness. -/
def statusPermissionDenied : Status :=
  { code := .unknown, message := "permission denied by server" }

def tPeerFail : Transport :=
  { tEcho with
    unaryCall := fun _ _ _ => .error statusPermissionDenied
    clientStreamingCall := fun _ _ _ => .error statusPermissionDenied }

/-- CLAIM C3: when the transport machinery succeeds but the peer answers a
unary or client-streaming call with a non-success status, dispatch returns a
successful outcome wrapping the status (`Ok (Unary (Err status))`); local
failures (not ready, metadata, shape) are the outer error, and the outer
`Ok`/`Err` layers are never confused. -/
theorem claim_peer_status_wrapped_as_ok (t : Transport) (m : MethodDescriptor)
    (p : Json) (items : List Json) (hs : List (String × String)) :
    (∀ req status, m.is_client_streaming = false → m.is_server_streaming = false →
      t.ready = .ok () →
      build_request t.validKey t.validValue p hs = .ok req →
      t.unaryCall req (http_path m) (JsonCodec.new m.input m.output) = .error status →
      (dynamic t m p hs).1 = .ok (.Unary (.error status)))
    ∧
    (∀ req status, m.is_client_streaming = true → m.is_server_streaming = false →
      t.ready = .ok () →
      build_request t.validKey t.validValue items hs = .ok req →
      t.clientStreamingCall req (http_path m) (JsonCodec.new m.input m.output) =
        .error status →
      (dynamic t m (.arr items) hs).1 = .ok (.Unary (.error status)))
    ∧
    (∀ e, m.is_client_streaming = false → m.is_server_streaming = false →
      t.ready = .error e →
      dynamic t m p hs = (.error (.ClientNotReady e), []))
    ∧
    (∀ e, m.is_client_streaming = false → m.is_server_streaming = false →
      t.ready = .ok () →
      build_request t.validKey t.validValue p hs = .error e →
      dynamic t m p hs = (.error e, []))
    ∧
    (m.is_client_streaming = true → (∀ its, p ≠ Json.arr its) →
      dynamic t m p hs =
        (.error (.InvalidJson "Client streaming requires a JSON Array body"), []))
    ∧
    (∀ (r : DynamicResponse) (e : GrpcRequestError),
      (Except.ok r : Except GrpcRequestError DynamicResponse) ≠ .error e) := by
  refine ⟨?_, ?_, ?_, ?_, ?_, ?_⟩
  · intro req status hc hsrv hready hbuild hcall
    rw [dynamic_unary_ok t m p hs req hc hsrv hready hbuild, hcall]
  · intro req status hc hsrv hready hbuild hcall
    rw [dynamic_client_streaming_ok t m items hs req hc hsrv hready hbuild, hcall]
  · intro e hc hsrv hready
    exact dynamic_unary_not_ready t m p hs e hc hsrv hready
  · intro e hc hsrv hready hbuild
    exact dynamic_unary_build_error t m p hs e hc hsrv hready hbuild
  · intro hc hp
    exact dynamic_non_array_shape_error t m p hs hc hp
  · intro r e h
    exact Except.noConfusion h

/-- Witness for C3: a peer failure on the unary path is delivered as a
successful dispatch wrapping the status. -/
theorem claim_peer_status_wrapped_as_ok_witness :
    (dynamic tPeerFail mUnaryEcho (Json.obj []) []).1 =
      .ok (.Unary (.error statusPermissionDenied)) :=
  (claim_peer_status_wrapped_as_ok tPeerFail mUnaryEcho (Json.obj []) [] []).1
    { payload := Json.obj [], metadata := [] } statusPermissionDenied
    rfl rfl rfl rfl rfl

/-- CLAIM C9: the request-shape check errors exactly when the payload is not
a JSON array; the empty array `[]` is accepted and produces a call whose
request stream carries zero messages rather than a shape error. -/
theorem claim_empty_array_accepted (t : Transport) (m : MethodDescriptor)
    (p : Json) (hs : List (String × String)) :
    ((∃ items, json_array_to_stream p = .ok items) ↔ ∃ items, p = .arr items)
    ∧ json_array_to_stream (.arr []) = .ok []
    ∧ (∀ req, m.is_client_streaming = true → m.is_server_streaming = false →
        t.ready = .ok () →
        build_request t.validKey t.validValue ([] : List Json) hs = .ok req →
        dynamic t m (.arr []) hs =
          (.ok (.Unary (t.clientStreamingCall req (http_path m)
             (JsonCodec.new m.input m.output))),
           [.clientStreamingSend (http_path m) []])) := by
  refine ⟨?_, rfl, ?_⟩
  · constructor
    · rintro ⟨items, h⟩
      exact ⟨items, (json_array_to_stream_eq_ok_iff p items).mp h⟩
    · rintro ⟨items, h⟩
      exact ⟨items, (json_array_to_stream_eq_ok_iff p items).mpr h⟩
  · intro req hc hsrv hready hbuild
    have hpay := build_request_payload t.validKey t.validValue [] hs req hbuild
    rw [dynamic_client_streaming_ok t m [] hs req hc hsrv hready hbuild, hpay]

/-- Witness for C9: the empty-array payload against the client-streaming
method dispatches a request stream of zero messages. -/
theorem claim_empty_array_accepted_witness :
    dynamic tEcho mClientStreamingEcho (Json.arr []) [] =
      (.ok (.Unary (tEcho.clientStreamingCall
         { payload := [], metadata := [] } (http_path mClientStreamingEcho)
         (JsonCodec.new "EchoRequest" "EchoResponse"))),
       [.clientStreamingSend (http_path mClientStreamingEcho) []]) :=
  (claim_empty_array_accepted tEcho mClientStreamingEcho (Json.arr []) []).2.2
    { payload := [], metadata := [] } rfl rfl rfl rfl

/-- The status the repository's own tests assert for the unknown-field
request (granc_client_file_descriptor_test.rs lines 178-185 and
granc_client_online_without_reflection_test.rs lines 184-194): code
`Internal`, message referencing the schema mismatch — even though the test
comments and the spec call for an invalid-argument-class status. -/
def schemaMismatchStatus : Status :=
  { code := .internal,
    message := "JSON structure does not match Protobuf schema" }

/-- A transport whose unary call fails exactly as those tests assert. -/
def tSchemaMismatch : Transport :=
  { tEcho with unaryCall := fun _ _ _ => .error schemaMismatchStatus }

/-- CLAIM C4 (code-bug evidence): the unknown-field request is indeed
delivered as a successful dispatch wrapping a failure status that references
the schema mismatch, but the status class the tests pin is `Internal`, which
is not the invalid-argument class the spec (and the tests' own comments)
require. -/
theorem claim_unknown_field_status_is_internal :
    dynamic tSchemaMismatch mUnaryEcho
        (Json.obj [("unknown_field", Json.num 123)]) [] =
      (.ok (.Unary (.error schemaMismatchStatus)),
       [.unarySend (http_path mUnaryEcho)
          (Json.obj [("unknown_field", Json.num 123)])])
    ∧ schemaMismatchStatus.code = .internal
    ∧ schemaMismatchStatus.code ≠ .invalidArgument
    ∧ schemaMismatchStatus.message = "JSON structure does not match Protobuf schema" := by
  refine ⟨rfl, rfl, by decide, rfl⟩

/-- The `echo.EchoService` descriptor and a pool holding only it, as in the
repository's tests. -/
def echoService : ServiceDescriptor :=
  { full_name := "echo.EchoService",
    methods := [mUnaryEcho, mServerStreamingEcho, mClientStreamingEcho,
      mBidirectionalEcho] }

def echoPool : DescriptorPool := { services := [echoService] }

/-- CLAIM C5: method lookup matches the service's fully qualified name and
the method's short name by exact (hence case-sensitive) string equality; an
unknown service yields `ServiceNotFound` carrying the service name, a known
service with an unknown method yields the distinct `MethodNotFound` carrying
the method name, and the two variants are never equal. -/
theorem claim_method_lookup_exact_and_distinguished (t : Transport)
    (pool : DescriptorPool) (request : DynamicRequest) :
    (get_service_by_name pool request.service = none →
      GrpcClient.dynamic t pool request =
        (.error (.ServiceNotFound request.service), []))
    ∧
    (∀ s, get_service_by_name pool request.service = some s →
      s.methods.find? (fun mm => mm.name == request.method) = none →
      GrpcClient.dynamic t pool request =
        (.error (.MethodNotFound request.method), []))
    ∧
    (∀ s, get_service_by_name pool request.service = some s →
      s ∈ pool.services ∧ s.full_name = request.service)
    ∧
    (∀ (s : ServiceDescriptor) mm,
      s.methods.find? (fun mm' => mm'.name == request.method) = some mm →
      mm ∈ s.methods ∧ mm.name = request.method)
    ∧
    (∀ a b, DynamicRequestError.ServiceNotFound a ≠
      DynamicRequestError.MethodNotFound b) := by
  refine ⟨?_, ?_, ?_, ?_, ?_⟩
  · intro h
    unfold GrpcClient.dynamic
    rw [h]
  · intro s h1 h2
    unfold GrpcClient.dynamic
    rw [h1]
    dsimp only
    rw [h2]
  · intro s h
    unfold get_service_by_name at h
    have hb := List.find?_some h
    exact ⟨List.mem_of_find?_eq_some h, eq_of_beq hb⟩
  · intro s mm h
    have hb := List.find?_some h
    exact ⟨List.mem_of_find?_eq_some h, eq_of_beq hb⟩
  · intro a b h
    exact DynamicRequestError.noConfusion h

/-- Witness for C5: requesting `GhostMethod` on the resolved `echo.EchoService`
yields `MethodNotFound "GhostMethod"`, not a service error. -/
theorem claim_method_lookup_exact_and_distinguished_witness :
    GrpcClient.dynamic tEcho echoPool
      { body := Json.obj [], headers := [],
        service := "echo.EchoService", method := "GhostMethod" } =
      (.error (.MethodNotFound "GhostMethod"), []) :=
  (claim_method_lookup_exact_and_distinguished tEcho echoPool
      { body := Json.obj [], headers := [],
        service := "echo.EchoService", method := "GhostMethod" }).2.1
    echoService rfl rfl

/-- CLAIM C7 (code-bug evidence): `build_file_descriptor_set` calls
`Vec::dedup`, which removes only consecutive duplicates; a file descriptor
repeated at non-adjacent positions of the discovery response survives, so
the claim "each distinct file descriptor appears at most once regardless of
where the duplicates occur" fails, while adjacent duplicates are removed. -/
theorem claim_dedup_only_adjacent :
    build_file_descriptor_set ["a.proto", "b.proto", "a.proto"] =
      ["a.proto", "b.proto", "a.proto"]
    ∧ (build_file_descriptor_set ["a.proto", "b.proto", "a.proto"]).count "a.proto" = 2
    ∧ build_file_descriptor_set ["a.proto", "a.proto", "b.proto"] =
        ["a.proto", "b.proto"] := by
  refine ⟨?_, ?_, ?_⟩ <;> simp [build_file_descriptor_set, dedup]

/-- CLAIM C8 (modelled from the spec, see `file_descriptor_set_by_symbol`):
a peer that never initialized the discovery service fails the very first
stream call, before any response is read, with `ServerStreamInitFailed`; a
symbol missing from a working discovery service fails after one response
read with the distinct `ServerStreamFailure`; the two variants are never
equal. -/
theorem claim_discovery_unimplemented_distinct (peer : DiscoveryPeer)
    (symbol : String) :
    (∀ status, peer.stream_init = .error status →
      file_descriptor_set_by_symbol peer symbol =
        (.error (.ServerStreamInitFailed status), 0))
    ∧
    (∀ status, peer.stream_init = .ok () → peer.reply symbol = .error status →
      file_descriptor_set_by_symbol peer symbol =
        (.error (.ServerStreamFailure status), 1))
    ∧
    (∀ s s', ReflectionResolveError.ServerStreamInitFailed s ≠
      ReflectionResolveError.ServerStreamFailure s') := by
  refine ⟨?_, ?_, ?_⟩
  · intro status h
    unfold file_descriptor_set_by_symbol
    rw [h]
  · intro status h1 h2
    unfold file_descriptor_set_by_symbol
    rw [h1, h2]
  · intro s s' h
    exact ReflectionResolveError.noConfusion h

/-- The status a peer without the discovery service produces at stream
initiation, as the in-repo tests assert (Unimplemented). -/
def statusUnimplemented : Status :=
  { code := .unimplemented, message := "reflection service not registered" }

/-- A peer that never initialized the discovery service. -/
def peerNoDiscovery : DiscoveryPeer :=
  { stream_init := .error statusUnimplemented, reply := fun _ => .ok [] }

/-- Witness for C8: the no-discovery peer fails at stream initiation with
`ServerStreamInitFailed` and zero responses read. -/
theorem claim_discovery_unimplemented_distinct_witness :
    file_descriptor_set_by_symbol peerNoDiscovery "echo.EchoService" =
      (.error (.ServerStreamInitFailed statusUnimplemented), 0) :=
  (claim_discovery_unimplemented_distinct peerNoDiscovery "echo.EchoService").1
    statusUnimplemented rfl

end Granc
